import Mathlib

/-!
Verification development for the glyph-cache core of `vello_encoding`
(`src/glyph_cache.rs`).  The Rust code is shallowly embedded: `f32` values
are modelled as exact rationals, the two `DashMap` stores as association
lists whose list order stands for the store's iteration order, the atomic
statistics counters as plain naturals (the embedding is sequential), and
the std `DefaultHasher` as a concrete deterministic 64-bit fold (only its
determinism and its 64-bit range matter to the properties proved here).
The `Encoding`/`PathEncoder`/`StreamOffsets` types live in modules of this
repository that are not part of the sources given (`encoding.rs`,
`path.rs`); they are modelled from the specification, as marked on each
such definition.
-/

namespace Vello

/-- Scalar type standing for Rust `f32`: modelled as exact rationals
(floating-point rounding noise is out of scope of the spec's claims). -/
abbrev F := ℚ

/-- Model of the std `DefaultHasher` combining step: one 64-bit
fold step (deterministic, order-sensitive, result below `2 ^ 64`). -/
def hashStep (h b : Nat) : Nat :=
  (h * 1099511628211 + b) % 18446744073709551616

/-- Model of the std `DefaultHasher` run over a byte/word sequence. -/
def hashBytes (bs : List Nat) : Nat :=
  bs.foldl hashStep 14695981039346656037

/-- Hash of the text content (`text.hash(&mut hasher)`), modelled over the
text's characters. -/
def textHash (s : String) : Nat :=
  hashBytes (s.data.map Char.toNat)

/-- Font identity bytes (`font.data.as_ref()`), modelled as a byte list. -/
abbrev FontData := List Nat

/-- Hash of the font identity bytes (`font.data.as_ref().hash(...)`). -/
def fontHash (f : FontData) : Nat :=
  hashBytes f

/-- Rust `peniko::Fill`. -/
inductive Fill
  | nonZero
  | evenOdd
deriving DecidableEq

/-- Rust `peniko::kurbo::Stroke` as seen by this core: the cache key only looks
at the variant discriminant, and the encoder only at whether the stroke
configuration is representable.  `representable` models from the spec
whether `encode_stroke_style` can encode this configuration (§4.4 step 2:
an unrepresentable stroke silently degrades to a non-zero-winding fill). -/
structure Stroke where
  width : F
  representable : Bool
deriving DecidableEq

/-- Rust `peniko::Style`: fill or stroke. -/
inductive Style
  | fill (f : Fill)
  | stroke (s : Stroke)
deriving DecidableEq

/-- Rust `std::mem::discriminant(style)`: the variant discriminant, fill vs.
stroke, as the byte that is hashed. -/
def Style.isStroke : Style → Bool
  | .fill _ => false
  | .stroke _ => true

/-- Hash of the style's variant discriminant
(`std::mem::discriminant(style).hash(&mut hasher)`). -/
def styleHashOf (st : Style) : Nat :=
  hashBytes [if st.isStroke then 1 else 0]

/-- Rust `(size * 100.0) as u32`: multiply by 100, truncate toward zero, and
saturate into the `u32` range (the semantics of Rust's float-to-int `as`).
Computed on the rational's numerator and denominator directly:
`size * 100 = (size.num * 100) / size.den`, and truncation toward zero of
a nonnegative value is Nat division. -/
def quantizeSize (size : F) : Nat :=
  if size < 0 then 0 else min (size.num.toNat * 100 / size.den) 4294967295

/-- Rust `TextCacheKey` (`glyph_cache.rs:86-92`): hashes of text, font bytes and
style discriminant, plus the quantized size. -/
structure TextCacheKey where
  text_hash : Nat
  font_hash : Nat
  size : Nat
  style_hash : Nat
deriving DecidableEq

/-- Rust `GlyphCache::generate_cache_key` (`glyph_cache.rs:241-270`). -/
def generate_cache_key (text : String) (font : FontData) (size : F)
    (style : Style) : TextCacheKey :=
  { text_hash := textHash text
    font_hash := fontHash font
    size := quantizeSize size
    style_hash := styleHashOf style }

/-- The secondary encoding-pool key (`glyph_cache.rs:360-362`): the whole
`TextCacheKey` run through `DefaultHasher` down to one 64-bit value. -/
def encodingKeyOf (k : TextCacheKey) : Nat :=
  hashStep (hashStep (hashStep (hashStep 14695981039346656037 k.text_hash)
    k.font_hash) k.size) k.style_hash

/-- Association-list lookup; models `DashMap::get`. -/
def alookup {κ α : Type} [DecidableEq κ] (k : κ) : List (κ × α) → Option α
  | [] => none
  | (k', v) :: t => if k' = k then some v else alookup k t

/-- Association-list insert; models `DashMap::insert` (replace an existing
key in place, otherwise add the entry at the end of iteration order). -/
def ainsert {κ α : Type} [DecidableEq κ] (k : κ) (v : α) :
    List (κ × α) → List (κ × α)
  | [] => [(k, v)]
  | (k', v') :: t => if k' = k then (k, v) :: t else (k', v') :: ainsert k v t

/-- Association-list removal; models `DashMap::remove`. -/
def aerase {κ α : Type} [DecidableEq κ] (k : κ) : List (κ × α) → List (κ × α)
  | [] => []
  | (k', v') :: t => if k' = k then aerase k t else (k', v') :: aerase k t

/-- Modelled from the spec (§3 Encoding, `encoding.rs` is not among the
given sources): a style tag in the Encoding's style stream. -/
inductive StyleTag
  | fillTag (f : Fill)
  | strokeTag (s : Stroke)
deriving DecidableEq

/-- Modelled from the spec (§3, §4.4; `encoding.rs` is not among the given
sources): a mutable vector-path buffer holding the style tag stream, the
path segment stream (each segment a start/end point pair) and the number
of finalized paths. -/
structure Encoding where
  styles : List StyleTag
  segments : List ((F × F) × (F × F))
  nPaths : Nat
deriving DecidableEq

/-- Modelled from the spec (§3 stream offsets): the counts marking how
much of each Encoding stream is currently written
(`Encoding::stream_offsets`). -/
structure StreamOffsets where
  path_segments : Nat
  paths : Nat
  styles : Nat
deriving DecidableEq

/-- Rust `Encoding::new()`: the empty encoding. -/
def Encoding.new : Encoding :=
  { styles := [], segments := [], nPaths := 0 }

/-- Rust `Encoding::reset()`: clear every stream back to the empty, valid state
(modelled from the spec §4.4 step 1 / step 5). -/
def Encoding.reset (_e : Encoding) : Encoding :=
  { styles := [], segments := [], nPaths := 0 }

/-- Rust `Encoding::stream_offsets()`: current lengths of the streams. -/
def Encoding.stream_offsets (e : Encoding) : StreamOffsets :=
  { path_segments := e.segments.length, paths := e.nPaths,
    styles := e.styles.length }

/-- Rust `Encoding::encode_fill_style` (modelled from the spec §4.4 step 2):
append a fill style tag. -/
def Encoding.encode_fill_style (e : Encoding) (f : Fill) : Encoding :=
  { e with styles := e.styles ++ [.fillTag f] }

/-- Rust `Encoding::encode_stroke_style` (modelled from the spec §4.4 step 2):
append a stroke style tag and report success when the encoder can
represent the stroke configuration; otherwise leave the encoding
untouched and report failure. -/
def Encoding.encode_stroke_style (e : Encoding) (s : Stroke) :
    Encoding × Bool :=
  if s.representable then
    ({ e with styles := e.styles ++ [.strokeTag s] }, true)
  else (e, false)

/-- The style-encoding step of `get_text_encoding`
(`glyph_cache.rs:398-412`): a Fill style encodes a fill tag; a Stroke
style attempts a stroke tag and degrades to a non-zero-winding fill tag
when the encoder cannot represent it.  Returns the updated encoding and
the chosen `is_fill` flag. -/
def encodeStyle (st : Style) (e : Encoding) : Encoding × Bool :=
  match st with
  | .fill f => (e.encode_fill_style f, true)
  | .stroke s =>
    let r := e.encode_stroke_style s
    if r.2 then (r.1, false)
    else (r.1.encode_fill_style .nonZero, true)

/-- The outline commands a path encoder receives; mirrors the source's
`OutlineCommand` collector (`glyph_cache.rs:23-31`), restricted to the
commands this core actually issues. -/
inductive OutlineCmd
  | moveTo (x y : F)
  | lineTo (x y : F)
  | close
deriving DecidableEq

/-- Subpath state of the path encoder. -/
inductive PathState
  | start
  | moved
  | nonempty
deriving DecidableEq

/-- Modelled from the spec (§4.4 steps 3-5; `path.rs` is not among the
given sources): the path-encoding cursor.  `commands` is the log of the
outline commands received; `segments`/`nSegments` are the segments
actually encoded.  Zero-length segments are not encoded, so that a
zero-sized measurement finalizes to zero segments (spec §4.4 step 5,
§8 empty-text example). -/
structure PathEncoder where
  isFill : Bool
  state : PathState
  first : F × F
  current : F × F
  segments : List ((F × F) × (F × F))
  nSegments : Nat
  commands : List OutlineCmd
deriving DecidableEq

/-- A fresh path-encoding cursor in the chosen fill/stroke mode. -/
def PathEncoder.new (isFill : Bool) : PathEncoder :=
  { isFill := isFill, state := .start, first := (0, 0), current := (0, 0),
    segments := [], nSegments := 0, commands := [] }

/-- Rust `PathEncoder::move_to`: start a subpath at the given point. -/
def PathEncoder.move_to (p : PathEncoder) (x y : F) : PathEncoder :=
  { p with
    state := .moved, first := (x, y), current := (x, y),
    commands := p.commands ++ [OutlineCmd.moveTo x y] }

/-- Rust `PathEncoder::line_to`: encode a line segment to the given point.
An initial line with no open subpath is treated as a move; a zero-length
line encodes nothing. -/
def PathEncoder.line_to (p : PathEncoder) (x y : F) : PathEncoder :=
  let p := { p with commands := p.commands ++ [OutlineCmd.lineTo x y] }
  match p.state with
  | .start =>
    { p with state := .moved, first := (x, y), current := (x, y) }
  | _ =>
    if p.current = (x, y) then p
    else
      { p with
        segments := p.segments ++ [(p.current, (x, y))],
        nSegments := p.nSegments + 1, current := (x, y),
        state := .nonempty }

/-- Rust `PathEncoder::close`: close the open subpath, encoding the closing
segment back to the subpath's first point when it is not degenerate; a
subpath holding only a move is dropped. -/
def PathEncoder.close (p : PathEncoder) : PathEncoder :=
  let p := { p with commands := p.commands ++ [OutlineCmd.close] }
  match p.state with
  | .start => p
  | .moved => { p with state := .start }
  | .nonempty =>
    if p.current = p.first then { p with state := .start }
    else
      { p with
        segments := p.segments ++ [(p.current, p.first)],
        nSegments := p.nSegments + 1, state := .start }

/-- Rust `PathEncoder::finish(insert_path_tag)` (modelled from the spec §4.4
step 5): finalize the path, merging the encoded segments into the
encoding and counting one path when any segment was produced; returns the
number of encoded segments. -/
def PathEncoder.finish (p : PathEncoder) (_insertPathTag : Bool)
    (e : Encoding) : Nat × Encoding :=
  if p.nSegments = 0 then (0, e)
  else
    (p.nSegments,
     { e with
       segments := e.segments ++ p.segments,
       nPaths := e.nPaths + 1 })

/-- Rust `Encoding::encode_path(is_fill)`: open a path-encoding cursor scoped
to the chosen mode (the cursor collects segments that `finish` merges
back into the encoding). -/
def Encoding.encode_path (_e : Encoding) (isFill : Bool) : PathEncoder :=
  PathEncoder.new isFill

/-- The rectangle emission call chain of `get_text_encoding`
(`glyph_cache.rs:415-428`): open the cursor, move to the origin, trace the
three sides, close. -/
def rectPath (e : Encoding) (isFill : Bool) (w h : F) : PathEncoder :=
  (((((e.encode_path isFill).move_to 0 0).line_to w 0).line_to
    w h).line_to 0 h).close

/-- Rust `blitz_text::TextMeasurement` as consumed by this core: the measured
content dimensions. -/
structure Measurement where
  content_width : F
  content_height : F
deriving DecidableEq

/-- Rust `blitz_text::Metrics`; `Metrics::relative(size, rel)` scales the line
height relative to the font size. -/
structure Metrics where
  font_size : F
  line_height : F
deriving DecidableEq

/-- Rust `Metrics::relative(font_size, line_height_rel)`. -/
def Metrics.relative (fontSize rel : F) : Metrics :=
  { font_size := fontSize, line_height := fontSize * rel }

/-- Rust `blitz_text::Buffer` as used here: a freshly constructed, empty layout
buffer placeholder carrying only its metrics. -/
structure Buffer where
  metrics : Metrics
  lines : List Unit
deriving DecidableEq

/-- Rust `Buffer::new(&mut FontSystem::new(), Metrics::relative(size, 1.0))`
(`glyph_cache.rs:204`): an empty layout buffer. -/
def Buffer.new (size : F) : Buffer :=
  { metrics := Metrics.relative size 1, lines := [] }

/-- Rust `glyphon::TextBounds`: integer pixel bounds. -/
structure Bounds where
  left : Int
  top : Int
  right : Int
  bottom : Int
deriving DecidableEq

/-- Truncation of a rational toward zero (the rounding of Rust's
float-to-int `as` cast). -/
def truncRat (x : F) : Int :=
  if x < 0 then -(((-x).num.toNat / (-x).den : Nat) : Int)
  else ((x.num.toNat / x.den : Nat) : Int)

/-- Rust `measurement.content_width as i32`: truncate toward zero and saturate
into the `i32` range. -/
def toI32 (x : F) : Int :=
  max (-2147483648) (min 2147483647 (truncRat x))

/-- Rust `blitz_text::TextAreaConfig` (`glyph_cache.rs:205-215`): rendering
area configuration with origin position, scale, pixel bounds and default
color. -/
structure TextAreaConfig where
  position : F × F
  scale : F
  bounds : Bounds
  default_color : Nat × Nat × Nat × Nat
deriving DecidableEq

/-- Rust `blitz_text::PreparedText` as assembled by this core
(`glyph_cache.rs:216-221`). -/
structure PreparedText where
  measurement : Measurement
  buffer : Buffer
  text_area_config : TextAreaConfig
  preparation_time : Nat
deriving DecidableEq

/-- The `PreparedText` record assembled on a cache miss
(`glyph_cache.rs:204-221`): the measurement, a fresh empty layout buffer,
an area configuration anchored at the origin with bounds cast from the
measured content size, white default color, and
`std::time::Duration::default()` (zero) as the preparation time. -/
def mkPrepared (m : Measurement) (size : F) : PreparedText :=
  { measurement := m
    buffer := Buffer.new size
    text_area_config :=
      { position := (0, 0), scale := 1
        bounds :=
          { left := 0, top := 0, right := toI32 m.content_width,
            bottom := toI32 m.content_height }
        default_color := (255, 255, 255, 255) }
    preparation_time := 0 }

/-- Rust `GlyphCacheStats` (`glyph_cache.rs:113-119`): the four monotone
counters (atomics modelled as naturals in this sequential embedding). -/
structure GlyphCacheStats where
  cache_hits : Nat
  cache_misses : Nat
  text_preparations : Nat
  encoding_reuses : Nat
deriving DecidableEq

/-- Rust `GlyphCache` (`glyph_cache.rs:95-110`).  The opaque GPU handles
(device, queue, texture format) are omitted: they are only forwarded to
the external text-system collaborator, which is modelled separately as
`ExtTextSystem`.  The two `DashMap` stores are association lists whose
list order stands for the store's iteration order;
`performance_monitor` is the maintenance tick counter. -/
structure GlyphCache where
  prepared_text_cache : List (TextCacheKey × PreparedText)
  performance_monitor : Nat
  encoding_pool : List (Nat × Encoding)
  stats : GlyphCacheStats
deriving DecidableEq

/-- Rust `GlyphCache::new` (`glyph_cache.rs:123-137`): empty stores, zero
counters. -/
def GlyphCache.new : GlyphCache :=
  { prepared_text_cache := [], performance_monitor := 0,
    encoding_pool := [], stats := ⟨0, 0, 0, 0⟩ }

/-- Rust `blitz_text::TextSystemError`, as an opaque error value. -/
structure TextSystemError where
  code : Nat
deriving DecidableEq

deriving instance DecidableEq for Except

/-- The external text-system collaborator
(`UnifiedTextSystem::new` + `measure_text`), modelled as a deterministic
environment: the outcome of constructing the system, the measurement
returned for a (text, size-derived attributes) request, and the
wall-clock time the measurement work takes (the code never reads a clock,
so this last field is only consulted by the specification's claims). -/
structure ExtTextSystem where
  construct : Except TextSystemError Unit
  measure : String → F → Except TextSystemError Measurement
  elapsed : Nat

/-- Rust `GlyphCacheSession` (`glyph_cache.rs:323-340`); the Rust session
borrows the cache, which this embedding passes alongside explicitly. -/
structure GlyphCacheSession where
  font : FontData
  size : F
  style : Style
  text : String
  prepared_text : PreparedText
  cache_key : TextCacheKey
deriving DecidableEq

/-- Rust `GlyphCache::session` (`glyph_cache.rs:170-238`): derive the cache
key, consult the prepared-text store (hit increments the hit counter; a
miss increments the miss counter, then constructs the external text
system and measures the text — either step failing propagates the error
with the store untouched — then assembles and inserts the prepared text
and counts the preparation).  The updated cache is returned in both
outcomes, mirroring the `&mut self` mutation that happens before a
failing `?`. -/
def GlyphCache.session (ext : ExtTextSystem) (c : GlyphCache)
    (font : FontData) (size : F) (style : Style) (text : String) :
    GlyphCache × Except TextSystemError GlyphCacheSession :=
  let cache_key := generate_cache_key text font size style
  match alookup cache_key c.prepared_text_cache with
  | some cached =>
    ({ c with
       stats := { c.stats with cache_hits := c.stats.cache_hits + 1 } },
     .ok { font := font, size := size, style := style, text := text,
           prepared_text := cached, cache_key := cache_key })
  | none =>
    let c :=
      { c with
        stats := { c.stats with
                   cache_misses := c.stats.cache_misses + 1 } }
    match ext.construct with
    | .error e => (c, .error e)
    | .ok _ =>
      match ext.measure text size with
      | .error e => (c, .error e)
      | .ok measurement =>
        let prepared := mkPrepared measurement size
        ({ c with
           prepared_text_cache :=
             ainsert cache_key prepared c.prepared_text_cache,
           stats := { c.stats with
                      text_preparations := c.stats.text_preparations + 1 } },
         .ok { font := font, size := size, style := style, text := text,
               prepared_text := prepared, cache_key := cache_key })

/-- Rust `GlyphCacheSession::get_encoding` (`glyph_cache.rs:355-379`): hash the
cache key down to the pool key; a pool hit counts a reuse and returns the
pooled shared handle, a miss inserts and returns a fresh empty encoding. -/
def GlyphCacheSession.get_encoding (s : GlyphCacheSession)
    (c : GlyphCache) : Encoding × GlyphCache :=
  let encoding_key := encodingKeyOf s.cache_key
  match alookup encoding_key c.encoding_pool with
  | some cached =>
    (cached,
     { c with
       stats := { c.stats with
                  encoding_reuses := c.stats.encoding_reuses + 1 } })
  | none =>
    (Encoding.new,
     { c with
       encoding_pool := ainsert encoding_key Encoding.new c.encoding_pool })

/-- Rust `GlyphCacheSession::get_text_encoding` (`glyph_cache.rs:389-437`).
The source calls `Arc::make_mut(&mut encoding)` on the handle returned by
`get_encoding`; that handle is never uniquely owned — on a pool miss a
clone was just inserted into the pool, on a pool hit the pool retains its
own `Arc` — so `make_mut` always clones and every write below lands in a
detached copy, leaving the pool's stored entry untouched.  The copy is
reset, the style is encoded, the rectangle spanning the measured content
size is emitted, and a finalized path of zero segments resets the copy
back to the empty state.  Returns the copy, its stream offsets, and the
cache (whose pool was only touched by `get_encoding`). -/
def GlyphCacheSession.get_text_encoding (s : GlyphCacheSession)
    (c : GlyphCache) : Encoding × StreamOffsets × GlyphCache :=
  let r := s.get_encoding c
  let e := Encoding.reset r.1
  let se := encodeStyle s.style e
  let w := s.prepared_text.measurement.content_width
  let h := s.prepared_text.measurement.content_height
  let p := rectPath se.1 se.2 w h
  let fin := p.finish true se.1
  let eFinal := if fin.1 = 0 then Encoding.reset fin.2 else fin.2
  (eFinal, eFinal.stream_offsets, r.2)

/-- The trimming pattern of `GlyphCache::maintain`
(`glyph_cache.rs:279-307`, used once per store): if the store holds more
than `threshold` entries, collect the keys of the first
`length - target` entries in iteration order and remove them one by
one; otherwise leave the store alone. -/
def trimStore {κ α : Type} [DecidableEq κ] (threshold target : Nat)
    (m : List (κ × α)) : List (κ × α) :=
  if threshold < m.length then
    ((m.take (m.length - target)).map Prod.fst).foldl
      (fun acc k => aerase k acc) m
  else m

/-- Rust `GlyphCache::maintain` (`glyph_cache.rs:273-308`): bump the
maintenance tick; trim the prepared-text store from above 1000 entries
down to 800, and the encoding pool from above 500 entries down to 400. -/
def GlyphCache.maintain (c : GlyphCache) : GlyphCache :=
  let c :=
    { c with performance_monitor := c.performance_monitor + 1 }
  let c :=
    { c with
      prepared_text_cache := trimStore 1000 800 c.prepared_text_cache }
  { c with encoding_pool := trimStore 500 400 c.encoding_pool }

/-- One full request: open a session, then emit the encoding
(`open_session` + `emit_encoding` of the spec); `none` when session
opening failed. -/
def runFlow (ext : ExtTextSystem) (c : GlyphCache) (font : FontData)
    (size : F) (style : Style) (text : String) :
    GlyphCache × Option (Encoding × StreamOffsets) :=
  match GlyphCache.session ext c font size style text with
  | (c1, .error _) => (c1, none)
  | (c1, .ok s) =>
    let t := s.get_text_encoding c1
    (t.2.2, some (t.1, t.2.1))

/-! Concrete fixtures used by witnesses and counterexamples. -/

/-- A deterministic external text system that always constructs and
measures every text as a 3 by 4 content box. -/
def extOk : ExtTextSystem :=
  { construct := .ok (), measure := fun _ _ => .ok ⟨3, 4⟩, elapsed := 0 }

/-- Like `extOk` but the measurement work takes 5 time units. -/
def extSlow : ExtTextSystem :=
  { construct := .ok (), measure := fun _ _ => .ok ⟨3, 4⟩, elapsed := 5 }

/-- An external text system whose measurement always fails. -/
def extFail : ExtTextSystem :=
  { construct := .ok (), measure := fun _ _ => .error ⟨7⟩, elapsed := 0 }

/-- The session produced by `extOk` for the fixture request. -/
def sessFix : GlyphCacheSession :=
  { font := [1], size := 16, style := .fill .nonZero, text := "Hi",
    prepared_text := mkPrepared ⟨3, 4⟩ 16,
    cache_key := generate_cache_key "Hi" [1] 16 (.fill .nonZero) }

/-- A session whose measured content box is zero-sized (empty text). -/
def sessZero : GlyphCacheSession :=
  { font := [1], size := 16, style := .fill .nonZero, text := "",
    prepared_text := mkPrepared ⟨0, 0⟩ 16,
    cache_key := generate_cache_key "" [1] 16 (.fill .nonZero) }

/-! Helper lemmas. -/

theorem alookup_ainsert_self {κ α : Type} [DecidableEq κ] (k : κ) (v : α) :
    ∀ m : List (κ × α), alookup k (ainsert k v m) = some v := by
  intro m
  induction m with
  | nil => simp [ainsert, alookup]
  | cons x t ih =>
    by_cases hx : x.1 = k
    · simp [ainsert, hx, alookup]
    · simpa [ainsert, hx, alookup] using ih

theorem aerase_of_not_mem {κ α : Type} [DecidableEq κ] (k : κ) :
    ∀ m : List (κ × α), k ∉ m.map Prod.fst → aerase k m = m := by
  intro m
  induction m with
  | nil => intro _; rfl
  | cons x t ih =>
    intro hmem
    have hx : x.1 ≠ k := by
      intro h
      exact hmem (by simp [h])
    have ht : k ∉ t.map Prod.fst := by
      intro h
      exact hmem (by simp [h])
    simp [aerase, hx, ih ht]

theorem aerase_fold_take {κ α : Type} [DecidableEq κ] :
    ∀ (m : List (κ × α)) (n : Nat), (m.map Prod.fst).Nodup →
      ((m.take n).map Prod.fst).foldl (fun acc k => aerase k acc) m =
        m.drop n := by
  intro m
  induction m with
  | nil => intro n _; simp
  | cons x t ih =>
    intro n hnd
    match n with
    | 0 => simp
    | n + 1 =>
      have hcons : (x.1 :: t.map Prod.fst).Nodup := by simpa using hnd
      have hx : x.1 ∉ t.map Prod.fst := (List.nodup_cons.mp hcons).1
      have hnd' : (t.map Prod.fst).Nodup := (List.nodup_cons.mp hcons).2
      have hstep : aerase x.1 (x :: t) = t := by
        have : aerase x.1 (x :: t) = aerase x.1 t := by
          simp [aerase]
        rw [this, aerase_of_not_mem x.1 t hx]
      calc ((List.take (n + 1) (x :: t)).map Prod.fst).foldl
            (fun acc k => aerase k acc) (x :: t)
          = ((t.take n).map Prod.fst).foldl (fun acc k => aerase k acc)
              (aerase x.1 (x :: t)) := by simp [List.foldl_cons]
        _ = ((t.take n).map Prod.fst).foldl (fun acc k => aerase k acc) t := by
              rw [hstep]
        _ = t.drop n := ih n hnd'

theorem move_to_commands (p : PathEncoder) (x y : F) :
    (p.move_to x y).commands = p.commands ++ [OutlineCmd.moveTo x y] := rfl

theorem line_to_commands (p : PathEncoder) (x y : F) :
    (p.line_to x y).commands = p.commands ++ [OutlineCmd.lineTo x y] := by
  unfold PathEncoder.line_to
  rcases p with ⟨b, st, f, cur, segs, n, cmds⟩
  cases st <;> simp <;> split <;> rfl

theorem close_commands (p : PathEncoder) :
    (p.close).commands = p.commands ++ [OutlineCmd.close] := by
  unfold PathEncoder.close
  rcases p with ⟨b, st, f, cur, segs, n, cmds⟩
  cases st <;> simp <;> split <;> rfl

theorem line_to_nSegments_le (p : PathEncoder) (x y : F) :
    p.nSegments ≤ (p.line_to x y).nSegments := by
  unfold PathEncoder.line_to
  rcases p with ⟨b, st, f, cur, segs, n, cmds⟩
  cases st <;> simp <;> split <;> simp

theorem close_nSegments_le (p : PathEncoder) :
    p.nSegments ≤ (p.close).nSegments := by
  unfold PathEncoder.close
  rcases p with ⟨b, st, f, cur, segs, n, cmds⟩
  cases st <;> simp <;> split <;> simp

theorem rectPath_commands (e : Encoding) (b : Bool) (w h : F) :
    (rectPath e b w h).commands =
      [OutlineCmd.moveTo 0 0, OutlineCmd.lineTo w 0, OutlineCmd.lineTo w h,
       OutlineCmd.lineTo 0 h, OutlineCmd.close] := by
  simp [rectPath, close_commands, line_to_commands, move_to_commands,
    Encoding.encode_path, PathEncoder.new]

theorem rectPath_zero_nSegments (e : Encoding) (b : Bool) :
    (rectPath e b 0 0).nSegments = 0 := rfl

theorem rectPath_nSegments_pos (e : Encoding) (b : Bool) (w h : F)
    (hwh : w ≠ 0 ∨ h ≠ 0) : (rectPath e b w h).nSegments ≠ 0 := by
  have step2 :
      ((((e.encode_path b).move_to 0 0).line_to w 0).line_to w h).nSegments
        ≠ 0 := by
    by_cases hw : w = 0
    · have hh : h ≠ 0 := by
        rcases hwh with h1 | h2
        · exact absurd hw h1
        · exact h2
      subst hw
      have h1 : (((e.encode_path b).move_to 0 0).line_to 0 0) =
          { (e.encode_path b).move_to 0 0 with
            commands := ((e.encode_path b).move_to 0 0).commands ++
              [OutlineCmd.lineTo 0 0] } := by
        simp [PathEncoder.line_to, PathEncoder.move_to,
          Encoding.encode_path, PathEncoder.new]
      rw [h1]
      have h2 : ({ (e.encode_path b).move_to 0 0 with
          commands := ((e.encode_path b).move_to 0 0).commands ++
            [OutlineCmd.lineTo 0 0] }.line_to 0 h).nSegments = 1 := by
        simp [PathEncoder.line_to, PathEncoder.move_to,
          Encoding.encode_path, PathEncoder.new, Prod.ext_iff,
          Ne.symm hh]
      omega
    · have h1 : (((e.encode_path b).move_to 0 0).line_to w 0).nSegments
          = 1 := by
        simp [PathEncoder.line_to, PathEncoder.move_to,
          Encoding.encode_path, PathEncoder.new, Prod.ext_iff, Ne.symm hw]
      have h2 := line_to_nSegments_le
        (((e.encode_path b).move_to 0 0).line_to w 0) w h
      omega
  have h3 := line_to_nSegments_le
    ((((e.encode_path b).move_to 0 0).line_to w 0).line_to w h) 0 h
  have h4 := close_nSegments_le
    (((((e.encode_path b).move_to 0 0).line_to w 0).line_to w h).line_to 0 h)
  simp only [rectPath]
  omega

/-- The updated cache returned by `get_encoding` never touches the
prepared-text store or the counters other than reuses, and always leaves
the pool holding the encoding key. -/
theorem get_encoding_pool_mem (s : GlyphCacheSession) (c : GlyphCache) :
    alookup (encodingKeyOf s.cache_key) (s.get_encoding c).2.encoding_pool =
      some (s.get_encoding c).1 := by
  cases hp : alookup (encodingKeyOf s.cache_key) c.encoding_pool with
  | none =>
    simp [GlyphCacheSession.get_encoding, hp,
      alookup_ainsert_self (encodingKeyOf s.cache_key) Encoding.new
        c.encoding_pool]
  | some v => simp [GlyphCacheSession.get_encoding, hp]

theorem get_encoding_prepared (s : GlyphCacheSession) (c : GlyphCache) :
    (s.get_encoding c).2.prepared_text_cache = c.prepared_text_cache := by
  cases hp : alookup (encodingKeyOf s.cache_key) c.encoding_pool <;>
    simp [GlyphCacheSession.get_encoding, hp]

theorem get_encoding_preparations (s : GlyphCacheSession) (c : GlyphCache) :
    (s.get_encoding c).2.stats.text_preparations =
      c.stats.text_preparations := by
  cases hp : alookup (encodingKeyOf s.cache_key) c.encoding_pool <;>
    simp [GlyphCacheSession.get_encoding, hp]

/-- The emitted encoding and its stream offsets depend only on the
session (style and measurement), not on the cache state: the write target
is a detached copy that is reset before writing. -/
theorem get_text_encoding_content (s : GlyphCacheSession)
    (c c' : GlyphCache) :
    (s.get_text_encoding c).1 = (s.get_text_encoding c').1 ∧
      (s.get_text_encoding c).2.1 = (s.get_text_encoding c').2.1 :=
  ⟨rfl, rfl⟩

theorem get_text_encoding_cache (s : GlyphCacheSession) (c : GlyphCache) :
    (s.get_text_encoding c).2.2 = (s.get_encoding c).2 := rfl

/-- Rust `session` on a prepared-text hit. -/
theorem session_hit (ext : ExtTextSystem) (c : GlyphCache)
    (font : FontData) (size : F) (style : Style) (text : String)
    (p : PreparedText)
    (h : alookup (generate_cache_key text font size style)
      c.prepared_text_cache = some p) :
    GlyphCache.session ext c font size style text =
      ({ c with
         stats := { c.stats with cache_hits := c.stats.cache_hits + 1 } },
       .ok { font := font, size := size, style := style, text := text,
             prepared_text := p,
             cache_key := generate_cache_key text font size style }) := by
  simp [GlyphCache.session, h]

/-- Rust `session` on a miss with successful construction and measurement. -/
theorem session_miss_ok (ext : ExtTextSystem) (c : GlyphCache)
    (font : FontData) (size : F) (style : Style) (text : String)
    (m : Measurement)
    (h : alookup (generate_cache_key text font size style)
      c.prepared_text_cache = none)
    (hc : ext.construct = .ok ())
    (hm : ext.measure text size = .ok m) :
    GlyphCache.session ext c font size style text =
      ({ c with
         prepared_text_cache :=
           ainsert (generate_cache_key text font size style)
             (mkPrepared m size) c.prepared_text_cache,
         stats := { c.stats with
                    cache_misses := c.stats.cache_misses + 1,
                    text_preparations := c.stats.text_preparations + 1 } },
       .ok { font := font, size := size, style := style, text := text,
             prepared_text := mkPrepared m size,
             cache_key := generate_cache_key text font size style }) := by
  simp [GlyphCache.session, h, hc, hm]

/-- Rust `session` on a miss whose text-system construction fails. -/
theorem session_construct_err (ext : ExtTextSystem) (c : GlyphCache)
    (font : FontData) (size : F) (style : Style) (text : String)
    (err : TextSystemError)
    (h : alookup (generate_cache_key text font size style)
      c.prepared_text_cache = none)
    (hc : ext.construct = .error err) :
    GlyphCache.session ext c font size style text =
      ({ c with
         stats := { c.stats with
                    cache_misses := c.stats.cache_misses + 1 } },
       .error err) := by
  simp [GlyphCache.session, h, hc]

/-- Rust `session` on a miss whose measurement fails. -/
theorem session_measure_err (ext : ExtTextSystem) (c : GlyphCache)
    (font : FontData) (size : F) (style : Style) (text : String)
    (err : TextSystemError)
    (h : alookup (generate_cache_key text font size style)
      c.prepared_text_cache = none)
    (hc : ext.construct = .ok ())
    (hm : ext.measure text size = .error err) :
    GlyphCache.session ext c font size style text =
      ({ c with
         stats := { c.stats with
                    cache_misses := c.stats.cache_misses + 1 } },
       .error err) := by
  simp [GlyphCache.session, h, hc, hm]

theorem hashBytes_zero_ne_one : hashBytes [0] ≠ hashBytes [1] := by decide

theorem styleHashOf_eq_iff (s1 s2 : Style) :
    styleHashOf s1 = styleHashOf s2 ↔ s1.isStroke = s2.isStroke := by
  cases h1 : s1.isStroke <;> cases h2 : s2.isStroke <;>
    simp [styleHashOf, h1, h2]
  · exact hashBytes_zero_ne_one
  · exact fun h => hashBytes_zero_ne_one h.symm

/-! Claim theorems. -/

/-- C4: key derivation is deterministic and pure (it is a function of the
request alone), and two requests produce equal `TextCacheKey`s exactly
when their text hashes, font-byte hashes, quantized sizes and style
variant discriminants agree; in particular two strokes differing only in
their parameters, and two sizes in the same quantization bucket, yield
the same key. -/
theorem c4_key_derivation (t1 t2 : String) (f1 f2 : FontData) (z1 z2 : F)
    (st1 st2 : Style) :
    (generate_cache_key t1 f1 z1 st1 = generate_cache_key t2 f2 z2 st2 ↔
      (textHash t1 = textHash t2 ∧ fontHash f1 = fontHash f2 ∧
        quantizeSize z1 = quantizeSize z2 ∧
        st1.isStroke = st2.isStroke)) ∧
    (∀ a b : Stroke,
      generate_cache_key t1 f1 z1 (.stroke a) =
        generate_cache_key t1 f1 z1 (.stroke b)) ∧
    (quantizeSize z1 = quantizeSize z2 →
      generate_cache_key t1 f1 z1 st1 =
        generate_cache_key t1 f1 z2 st1) := by
  refine ⟨?_, ?_, ?_⟩
  · simp [generate_cache_key, TextCacheKey.mk.injEq,
      styleHashOf_eq_iff, and_assoc]
  · intro a b
    simp [generate_cache_key, TextCacheKey.mk.injEq, styleHashOf,
      Style.isStroke]
  · intro hq
    simp [generate_cache_key, TextCacheKey.mk.injEq, hq]

/-- C4 witness: two stroke styles differing in width and representability
still derive the same cache key. -/
theorem c4_key_derivation_witness :
    generate_cache_key "a" [1] 2 (.stroke ⟨1, true⟩) =
      generate_cache_key "a" [1] 2 (.stroke ⟨2, false⟩) :=
  (c4_key_derivation "a" "a" [1] [1] 2 2 (.stroke ⟨1, true⟩)
    (.stroke ⟨2, false⟩)).2.1 ⟨1, true⟩ ⟨2, false⟩

/-- C5: the emission step issues to the path encoder exactly one path
consisting of a move to the origin, the three rectangle sides through
(w,0), (w,h), (0,h) and a close; the mode is fill for a Fill style and
for a Stroke style the encoder cannot represent (which records a
non-zero-winding fill tag instead of a stroke tag), stroke otherwise; and
finalizing that path with a nonzero-sized box adds exactly one path to
the encoding. -/
theorem c5_rect_emission (e e' : Encoding) (st : Style) (w h : F) :
    (rectPath e (encodeStyle st e').2 w h).commands =
      [OutlineCmd.moveTo 0 0, OutlineCmd.lineTo w 0, OutlineCmd.lineTo w h,
       OutlineCmd.lineTo 0 h, OutlineCmd.close] ∧
    (encodeStyle st e').2 =
      (match st with
       | .fill _ => true
       | .stroke s => !s.representable) ∧
    (encodeStyle st e').1.styles = e'.styles ++
      [match st with
       | .fill f => StyleTag.fillTag f
       | .stroke s =>
         if s.representable then StyleTag.strokeTag s
         else StyleTag.fillTag Fill.nonZero] ∧
    ((w ≠ 0 ∨ h ≠ 0) →
      ((rectPath e (encodeStyle st e').2 w h).finish true e).2.nPaths =
        e.nPaths + 1) := by
  refine ⟨rectPath_commands e _ w h, ?_, ?_, ?_⟩
  · cases st with
    | fill f => rfl
    | stroke s =>
      cases hr : s.representable <;>
        simp [encodeStyle, Encoding.encode_stroke_style, hr]
  · cases st with
    | fill f => rfl
    | stroke s =>
      cases hr : s.representable <;>
        simp [encodeStyle, Encoding.encode_stroke_style,
          Encoding.encode_fill_style, hr]
  · intro hwh
    have hn := rectPath_nSegments_pos e (encodeStyle st e').2 w h hwh
    simp [PathEncoder.finish, hn]

/-- C5 witness: finalizing the rectangle path for a 3 by 4 box counts one
path. -/
theorem c5_rect_emission_witness :
    ((rectPath Encoding.new
        (encodeStyle (Style.fill Fill.nonZero) Encoding.new).2 3 4).finish
      true Encoding.new).2.nPaths = Encoding.new.nPaths + 1 :=
  (c5_rect_emission Encoding.new Encoding.new (Style.fill Fill.nonZero)
    3 4).2.2.2 (Or.inl (by decide))

/-- C6: a session whose measured content box is zero-sized emits
successfully and returns an encoding with zero path segments, explicitly
reset to the valid empty state, together with zero stream offsets. -/
theorem c6_zero_box (s : GlyphCacheSession) (c : GlyphCache)
    (hw : s.prepared_text.measurement.content_width = 0)
    (hh : s.prepared_text.measurement.content_height = 0) :
    (s.get_text_encoding c).1 = Encoding.new ∧
    (s.get_text_encoding c).1.segments = [] ∧
    (s.get_text_encoding c).2.1 = ⟨0, 0, 0⟩ := by
  refine ⟨?_, ?_, ?_⟩ <;>
    simp [GlyphCacheSession.get_text_encoding, hw, hh,
      rectPath_zero_nSegments, PathEncoder.finish, Encoding.reset,
      Encoding.new, Encoding.stream_offsets]

/-- C6 witness: the zero-box fixture session emits the empty encoding
with zero offsets. -/
theorem c6_zero_box_witness :
    (sessZero.get_text_encoding GlyphCache.new).1 = Encoding.new ∧
    (sessZero.get_text_encoding GlyphCache.new).1.segments = [] ∧
    (sessZero.get_text_encoding GlyphCache.new).2.1 = ⟨0, 0, 0⟩ :=
  c6_zero_box sessZero GlyphCache.new rfl rfl

/-- C7: `maintain` increments the maintenance tick by exactly one; a
prepared-text store over 1000 entries is trimmed, in iteration order, to
its last 800 entries (hence at most 800), one over 500 pooled encodings
to its last 400; a store at or below its threshold is left unchanged. -/
theorem c7_maintain (c : GlyphCache)
    (hnd1 : (c.prepared_text_cache.map Prod.fst).Nodup)
    (hnd2 : (c.encoding_pool.map Prod.fst).Nodup) :
    (c.maintain.performance_monitor = c.performance_monitor + 1) ∧
    (1000 < c.prepared_text_cache.length →
      c.maintain.prepared_text_cache =
        c.prepared_text_cache.drop (c.prepared_text_cache.length - 800) ∧
      c.maintain.prepared_text_cache.length ≤ 800) ∧
    (c.prepared_text_cache.length ≤ 1000 →
      c.maintain.prepared_text_cache = c.prepared_text_cache) ∧
    (500 < c.encoding_pool.length →
      c.maintain.encoding_pool =
        c.encoding_pool.drop (c.encoding_pool.length - 400) ∧
      c.maintain.encoding_pool.length ≤ 400) ∧
    (c.encoding_pool.length ≤ 500 →
      c.maintain.encoding_pool = c.encoding_pool) := by
  have hperf : c.maintain.performance_monitor =
      c.performance_monitor + 1 := rfl
  have hprep : c.maintain.prepared_text_cache =
      trimStore 1000 800 c.prepared_text_cache := rfl
  have hpool : c.maintain.encoding_pool =
      trimStore 500 400 c.encoding_pool := rfl
  refine ⟨hperf, ?_, ?_, ?_, ?_⟩
  · intro h1
    have ht : trimStore 1000 800 c.prepared_text_cache =
        c.prepared_text_cache.drop (c.prepared_text_cache.length - 800) := by
      rw [trimStore, if_pos h1,
        aerase_fold_take c.prepared_text_cache _ hnd1]
    refine ⟨by rw [hprep, ht], ?_⟩
    rw [hprep, ht, List.length_drop]
    omega
  · intro h1
    rw [hprep, trimStore, if_neg (by omega)]
  · intro h2
    have ht : trimStore 500 400 c.encoding_pool =
        c.encoding_pool.drop (c.encoding_pool.length - 400) := by
      rw [trimStore, if_pos h2, aerase_fold_take c.encoding_pool _ hnd2]
    refine ⟨by rw [hpool, ht], ?_⟩
    rw [hpool, ht, List.length_drop]
    omega
  · intro h2
    rw [hpool, trimStore, if_neg (by omega)]

/-- C7 witness: on the empty cache, `maintain` bumps the tick and leaves
both (at-threshold) stores unchanged. -/
theorem c7_maintain_witness :
    (GlyphCache.maintain GlyphCache.new).performance_monitor =
      GlyphCache.new.performance_monitor + 1 :=
  (c7_maintain GlyphCache.new List.Pairwise.nil List.Pairwise.nil).1

theorem hashStep_lt (h b : Nat) :
    hashStep h b < 18446744073709551616 :=
  Nat.mod_lt _ (by norm_num)

/-- C10: the secondary pool key maps a key space strictly larger than
`2 ^ 64` into 64 bits, so two distinct `TextCacheKey`s with equal pool
keys exist; and for any two sessions whose pool keys agree, the second
`get_encoding` returns the very encoding the first one obtained and
counts the second access as a reuse. -/
theorem c10_pool_collision :
    (∃ k1 k2 : TextCacheKey,
      k1 ≠ k2 ∧ encodingKeyOf k1 = encodingKeyOf k2) ∧
    (∀ (s1 s2 : GlyphCacheSession) (c : GlyphCache),
      encodingKeyOf s1.cache_key = encodingKeyOf s2.cache_key →
      (s2.get_encoding (s1.get_encoding c).2).1 = (s1.get_encoding c).1 ∧
      (s2.get_encoding (s1.get_encoding c).2).2.stats.encoding_reuses =
        (s1.get_encoding c).2.stats.encoding_reuses + 1) := by
  constructor
  · have hcard :
        Fintype.card (Fin 18446744073709551616) <
          Fintype.card (Fin 36893488147419103232) := by
      simp only [Fintype.card_fin]
      omega
    obtain ⟨x, y, hxy, hfeq⟩ :=
      Fintype.exists_ne_map_eq_of_card_lt
        (fun a : Fin 36893488147419103232 =>
          (⟨encodingKeyOf ⟨a.val % 18446744073709551616, 0, 0,
              a.val / 18446744073709551616⟩, hashStep_lt _ _⟩ :
            Fin 18446744073709551616))
        hcard
    refine ⟨⟨x.val % 18446744073709551616, 0, 0,
        x.val / 18446744073709551616⟩,
      ⟨y.val % 18446744073709551616, 0, 0,
        y.val / 18446744073709551616⟩, ?_, ?_⟩
    · intro hkeq
      apply hxy
      have h1 : x.val % 18446744073709551616 =
          y.val % 18446744073709551616 :=
        congrArg TextCacheKey.text_hash hkeq
      have h2 : x.val / 18446744073709551616 =
          y.val / 18446744073709551616 :=
        congrArg TextCacheKey.style_hash hkeq
      apply Fin.ext
      omega
    · exact congrArg Fin.val hfeq
  · intro s1 s2 c hk
    cases hp : alookup (encodingKeyOf s1.cache_key) c.encoding_pool with
    | some v =>
      have h2 : alookup (encodingKeyOf s2.cache_key) c.encoding_pool =
          some v := by rw [← hk]; exact hp
      constructor <;> simp [GlyphCacheSession.get_encoding, hp, h2]
    | none =>
      have h2 : alookup (encodingKeyOf s2.cache_key)
          (ainsert (encodingKeyOf s1.cache_key) Encoding.new
            c.encoding_pool) = some Encoding.new := by
        rw [← hk]
        exact alookup_ainsert_self _ _ _
      constructor <;> simp [GlyphCacheSession.get_encoding, hp, h2]

/-- C10 witness: two acquisitions under the same pool key share one
encoding and the second one counts as a reuse. -/
theorem c10_pool_collision_witness :
    (sessFix.get_encoding (sessFix.get_encoding GlyphCache.new).2).1 =
      (sessFix.get_encoding GlyphCache.new).1 ∧
    (sessFix.get_encoding
        (sessFix.get_encoding GlyphCache.new).2).2.stats.encoding_reuses =
      (sessFix.get_encoding GlyphCache.new).2.stats.encoding_reuses + 1 :=
  c10_pool_collision.2 sessFix sessFix GlyphCache.new rfl

/-- C2 counterexample: after a session emits, the pool's stored entry
still holds the untouched empty encoding while the returned handle holds
the written geometry — the claim that the pool's canonical instance is
re-populated in place and returned is false at this input
(`Arc::make_mut` cloned the shared handle). -/
theorem c2_counterexample :
    alookup (encodingKeyOf sessFix.cache_key)
      (sessFix.get_text_encoding GlyphCache.new).2.2.encoding_pool =
      some Encoding.new ∧
    (sessFix.get_text_encoding GlyphCache.new).1 ≠ Encoding.new := by
  constructor
  · decide
  · decide

/-- C2 amended: `emit_encoding` acquires the pooled handle but, because
the pool retains its own reference, all writes land in a detached copy:
the pool's entry after emission is exactly what `get_encoding` left there
(the prior entry on a hit, a fresh empty encoding inserted on a miss),
and the returned encoding and offsets are independent of the cache
state. -/
theorem c2_amended (s : GlyphCacheSession) (c c' : GlyphCache) :
    (s.get_text_encoding c).2.2.encoding_pool =
      (match alookup (encodingKeyOf s.cache_key) c.encoding_pool with
       | some _ => c.encoding_pool
       | none =>
         ainsert (encodingKeyOf s.cache_key) Encoding.new
           c.encoding_pool) ∧
    (s.get_text_encoding c).1 = (s.get_text_encoding c').1 ∧
    (s.get_text_encoding c).2.1 = (s.get_text_encoding c').2.1 := by
  refine ⟨?_, rfl, rfl⟩
  rw [get_text_encoding_cache]
  cases hp : alookup (encodingKeyOf s.cache_key) c.encoding_pool <;>
    simp [GlyphCacheSession.get_encoding, hp]

/-- C9 counterexample: the `PreparedText` stored for a miss records a
preparation time of zero (`Duration::default()`) even though the
measurement work took 5 time units — the record does not hold the
wall-clock cost of producing it. -/
theorem c9_counterexample :
    (alookup (generate_cache_key "Hi" [1] 16 (.fill .nonZero))
      (GlyphCache.session extSlow GlyphCache.new [1] 16 (.fill .nonZero)
        "Hi").1.prepared_text_cache).map PreparedText.preparation_time =
      some 0 ∧
    extSlow.elapsed = 5 ∧ (0 : Nat) ≠ 5 := by
  refine ⟨by decide, rfl, by decide⟩

/-- C9 amended: the `PreparedText` assembled and inserted on a successful
miss combines the returned measurement, a fresh empty layout buffer, an
origin-anchored area configuration whose integer bounds are the measured
content size truncated to `i32`, and a default (zero) preparation time
rather than the elapsed measurement cost. -/
theorem c9_amended (ext : ExtTextSystem) (c : GlyphCache)
    (font : FontData) (size : F) (style : Style) (text : String)
    (m : Measurement)
    (h : alookup (generate_cache_key text font size style)
      c.prepared_text_cache = none)
    (hc : ext.construct = .ok ())
    (hm : ext.measure text size = .ok m) :
    alookup (generate_cache_key text font size style)
      (GlyphCache.session ext c font size style
        text).1.prepared_text_cache = some (mkPrepared m size) ∧
    (mkPrepared m size).preparation_time = 0 ∧
    (mkPrepared m size).measurement = m ∧
    (mkPrepared m size).buffer = Buffer.new size ∧
    (mkPrepared m size).text_area_config =
      { position := (0, 0), scale := 1
        bounds :=
          { left := 0, top := 0, right := toI32 m.content_width,
            bottom := toI32 m.content_height }
        default_color := (255, 255, 255, 255) } := by
  refine ⟨?_, rfl, rfl, rfl, rfl⟩
  rw [session_miss_ok ext c font size style text m h hc hm]
  exact alookup_ainsert_self _ _ _

/-- C9 amended witness: concrete miss inserting the assembled record. -/
theorem c9_amended_witness :
    alookup (generate_cache_key "Hi" [1] 16 (.fill .nonZero))
      (GlyphCache.session extOk GlyphCache.new [1] 16 (.fill .nonZero)
        "Hi").1.prepared_text_cache = some (mkPrepared ⟨3, 4⟩ 16) :=
  (c9_amended extOk GlyphCache.new [1] 16 (.fill .nonZero) "Hi" ⟨3, 4⟩
    rfl rfl rfl).1

/-- A request repeated against a cache that already holds its prepared
text: the repeated session is a hit returning the same session value,
preparations stay unchanged through it and through its encoding
acquisition, and the acquisition counts a reuse. -/
theorem second_request (ext : ExtTextSystem) (c1 : GlyphCache)
    (font : FontData) (size : F) (style : Style) (text : String)
    (p : PreparedText)
    (hl1 : alookup (generate_cache_key text font size style)
      c1.prepared_text_cache = some p) :
    let s1 : GlyphCacheSession :=
      ⟨font, size, style, text, p, generate_cache_key text font size style⟩
    let c2 := (s1.get_encoding c1).2
    let r2 := GlyphCache.session ext c2 font size style text
    r2.2 = .ok s1 ∧
    r2.1.stats.text_preparations = c2.stats.text_preparations ∧
    (s1.get_encoding r2.1).2.stats.encoding_reuses =
      r2.1.stats.encoding_reuses + 1 ∧
    (s1.get_encoding r2.1).2.stats.text_preparations =
      r2.1.stats.text_preparations := by
  dsimp only
  have hl2 : alookup (generate_cache_key text font size style)
      ((⟨font, size, style, text, p,
          generate_cache_key text font size style⟩ :
        GlyphCacheSession).get_encoding c1).2.prepared_text_cache =
      some p := by
    rw [get_encoding_prepared]
    exact hl1
  rw [session_hit ext _ font size style text p hl2]
  refine ⟨rfl, rfl, ?_, ?_⟩ <;>
  · cases hp : alookup (encodingKeyOf
        (generate_cache_key text font size style)) c1.encoding_pool with
    | some v => simp [GlyphCacheSession.get_encoding, hp]
    | none =>
      simp [GlyphCacheSession.get_encoding, hp, alookup_ainsert_self]

/-- C3 counterexample: on a miss whose measurement fails, the miss
counter is incremented but the preparation counter is not — refuting
that a miss always increments preparations by exactly one. -/
theorem c3_counterexample :
    (GlyphCache.session extFail GlyphCache.new [1] 16 (.fill .nonZero)
      "Hi").1.stats.cache_misses = GlyphCache.new.stats.cache_misses + 1 ∧
    (GlyphCache.session extFail GlyphCache.new [1] 16 (.fill .nonZero)
      "Hi").1.stats.text_preparations =
      GlyphCache.new.stats.text_preparations := by
  exact ⟨by decide, by decide⟩

/-- C3 (amended): every `session` call increments exactly one of the
hit/miss counters, so hits plus misses tracks the number of calls; a
miss that opens the session successfully additionally increments
preparations by exactly one (a failed miss leaves preparations
unchanged); and a second request with an identical key, followed by its
encoding acquisition, increments reuses and does not increment
preparations. -/
theorem c3_counters (ext : ExtTextSystem) (c : GlyphCache)
    (font : FontData) (size : F) (style : Style) (text : String) :
    let key := generate_cache_key text font size style
    let r := GlyphCache.session ext c font size style text
    (r.1.stats.cache_hits + r.1.stats.cache_misses =
      c.stats.cache_hits + c.stats.cache_misses + 1) ∧
    ((r.1.stats.cache_hits = c.stats.cache_hits + 1 ∧
      r.1.stats.cache_misses = c.stats.cache_misses) ∨
     (r.1.stats.cache_hits = c.stats.cache_hits ∧
      r.1.stats.cache_misses = c.stats.cache_misses + 1)) ∧
    (∀ s1, r.2 = .ok s1 →
      r.1.stats.text_preparations = c.stats.text_preparations +
        (if alookup key c.prepared_text_cache = none then 1 else 0)) ∧
    (∀ s1, r.2 = .ok s1 →
      let c2 := (s1.get_encoding r.1).2
      let r2 := GlyphCache.session ext c2 font size style text
      r2.2 = .ok s1 ∧
      r2.1.stats.text_preparations = c2.stats.text_preparations ∧
      (s1.get_encoding r2.1).2.stats.encoding_reuses =
        r2.1.stats.encoding_reuses + 1 ∧
      (s1.get_encoding r2.1).2.stats.text_preparations =
        r2.1.stats.text_preparations) := by
  dsimp only
  cases hl : alookup (generate_cache_key text font size style)
      c.prepared_text_cache with
  | some p =>
    rw [session_hit ext c font size style text p hl]
    refine ⟨by dsimp only; omega, Or.inl ⟨rfl, rfl⟩, ?_, ?_⟩
    · intro s1 _
      simp [hl]
    · intro s1 hok
      have hs1 : (⟨font, size, style, text, p,
          generate_cache_key text font size style⟩ :
            GlyphCacheSession) = s1 := by
        injection hok
      subst hs1
      exact second_request ext _ font size style text p hl
  | none =>
    cases hc : ext.construct with
    | error e =>
      rw [session_construct_err ext c font size style text e hl hc]
      refine ⟨by dsimp only; omega, Or.inr ⟨rfl, rfl⟩, ?_, ?_⟩ <;>
        intro s1 hok <;> exact absurd hok (by simp)
    | ok u =>
      cases u
      cases hm : ext.measure text size with
      | error e =>
        rw [session_measure_err ext c font size style text e hl hc hm]
        refine ⟨by dsimp only; omega, Or.inr ⟨rfl, rfl⟩, ?_, ?_⟩ <;>
          intro s1 hok <;> exact absurd hok (by simp)
      | ok m =>
        rw [session_miss_ok ext c font size style text m hl hc hm]
        refine ⟨by dsimp only; omega, Or.inr ⟨rfl, rfl⟩, ?_, ?_⟩
        · intro s1 _
          simp [hl]
        · intro s1 hok
          have hs1 : (⟨font, size, style, text, mkPrepared m size,
              generate_cache_key text font size style⟩ :
                GlyphCacheSession) = s1 := by
            injection hok
          subst hs1
          exact second_request ext _ font size style text
            (mkPrepared m size)
            (by dsimp only
                exact alookup_ainsert_self _ _ _)

/-- C3 witness: a fresh miss has its preparation counted once. -/
theorem c3_counters_witness :
    (GlyphCache.session extOk GlyphCache.new [1] 16 (.fill .nonZero)
      "Hi").1.stats.text_preparations =
      GlyphCache.new.stats.text_preparations +
        (if alookup (generate_cache_key "Hi" [1] 16 (.fill .nonZero))
            GlyphCache.new.prepared_text_cache = none then 1 else 0) :=
  (c3_counters extOk GlyphCache.new [1] 16 (.fill .nonZero) "Hi").2.2.1
    sessFix rfl

/-- C8: session opening fails with a given error exactly when the key is
uncached and either constructing the external text system or measuring
the text fails with that error (the error propagates); and on such a
failure the prepared-text store and the preparation counter are left
unchanged.  (All operations of an opened session are total functions in
this embedding, mirroring their non-`Result` signatures.) -/
theorem c8_failure (ext : ExtTextSystem) (c : GlyphCache)
    (font : FontData) (size : F) (style : Style) (text : String)
    (err : TextSystemError) :
    ((GlyphCache.session ext c font size style text).2 = .error err ↔
      (alookup (generate_cache_key text font size style)
          c.prepared_text_cache = none ∧
        (ext.construct = .error err ∨
          (ext.construct = .ok () ∧
            ext.measure text size = .error err)))) ∧
    ((GlyphCache.session ext c font size style text).2 = .error err →
      (GlyphCache.session ext c font size style
          text).1.prepared_text_cache = c.prepared_text_cache ∧
      (GlyphCache.session ext c font size style
          text).1.stats.text_preparations =
        c.stats.text_preparations) := by
  cases hl : alookup (generate_cache_key text font size style)
      c.prepared_text_cache with
  | some p =>
    rw [session_hit ext c font size style text p hl]
    constructor
    · simp [hl]
    · intro h
      exact absurd h (by simp)
  | none =>
    cases hc : ext.construct with
    | error e =>
      rw [session_construct_err ext c font size style text e hl hc]
      constructor
      · simp [hl, hc]
      · intro _
        exact ⟨rfl, rfl⟩
    | ok u =>
      cases u
      cases hm : ext.measure text size with
      | error e =>
        rw [session_measure_err ext c font size style text e hl hc hm]
        constructor
        · simp [hl, hc, hm]
        · intro _
          exact ⟨rfl, rfl⟩
      | ok m =>
        rw [session_miss_ok ext c font size style text m hl hc hm]
        constructor
        · simp [hl, hc, hm]
        · intro h
          exact absurd h (by simp)

/-- C8 witness: a failing measurement leaves the store and the
preparation counter unchanged. -/
theorem c8_failure_witness :
    (GlyphCache.session extFail GlyphCache.new [1] 16 (.fill .nonZero)
      "Hi").1.prepared_text_cache = GlyphCache.new.prepared_text_cache ∧
    (GlyphCache.session extFail GlyphCache.new [1] 16 (.fill .nonZero)
      "Hi").1.stats.text_preparations =
      GlyphCache.new.stats.text_preparations :=
  (c8_failure extFail GlyphCache.new [1] 16 (.fill .nonZero) "Hi"
    ⟨7⟩).2 (by decide)

/-- Unfolding `runFlow` when the session opens. -/
theorem runFlow_ok (ext : ExtTextSystem) (c : GlyphCache)
    (font : FontData) (size : F) (style : Style) (text : String)
    (c1 : GlyphCache) (s1 : GlyphCacheSession)
    (h : GlyphCache.session ext c font size style text = (c1, .ok s1)) :
    runFlow ext c font size style text =
      ((s1.get_text_encoding c1).2.2,
       some ((s1.get_text_encoding c1).1,
         (s1.get_text_encoding c1).2.1)) := by
  unfold runFlow
  rw [h]

/-- Unfolding `runFlow` when the session fails. -/
theorem runFlow_err (ext : ExtTextSystem) (c : GlyphCache)
    (font : FontData) (size : F) (style : Style) (text : String)
    (c1 : GlyphCache) (e : TextSystemError)
    (h : GlyphCache.session ext c font size style text = (c1, .error e)) :
    runFlow ext c font size style text = (c1, none) := by
  unfold runFlow
  rw [h]

/-- C1: with the deterministic external measurement collaborator held
fixed, a successful `open_session` + `emit_encoding` run followed by an
identical run produces the identical emitted encoding and the identical
stream offsets (in particular the cached hit path reproduces the miss
path byte for byte). -/
theorem c1_determinism (ext : ExtTextSystem) (c : GlyphCache)
    (font : FontData) (size : F) (style : Style) (text : String)
    (pr : Encoding × StreamOffsets)
    (h : (runFlow ext c font size style text).2 = some pr) :
    (runFlow ext (runFlow ext c font size style text).1 font size style
      text).2 = some pr := by
  cases hl : alookup (generate_cache_key text font size style)
      c.prepared_text_cache with
  | some p =>
    have hs1 := session_hit ext c font size style text p hl
    rw [runFlow_ok ext c font size style text _ _ hs1] at h ⊢
    have hl2 : alookup (generate_cache_key text font size style)
        (((⟨font, size, style, text, p,
            generate_cache_key text font size style⟩ :
          GlyphCacheSession).get_text_encoding
            { c with
              stats := { c.stats with
                cache_hits := c.stats.cache_hits + 1 } }).2.2).prepared_text_cache =
        some p := by
      rw [get_text_encoding_cache, get_encoding_prepared]
      exact hl
    rw [runFlow_ok ext _ font size style text _ _
      (session_hit ext _ font size style text p hl2)]
    exact h
  | none =>
    cases hc : ext.construct with
    | error e =>
      rw [runFlow_err ext c font size style text _ e
        (session_construct_err ext c font size style text e hl hc)] at h
      exact absurd h (by simp)
    | ok u =>
      cases u
      cases hm : ext.measure text size with
      | error e =>
        rw [runFlow_err ext c font size style text _ e
          (session_measure_err ext c font size style text e hl hc hm)] at h
        exact absurd h (by simp)
      | ok m =>
        have hs1 := session_miss_ok ext c font size style text m hl hc hm
        rw [runFlow_ok ext c font size style text _ _ hs1] at h ⊢
        have hl2 : alookup (generate_cache_key text font size style)
            (((⟨font, size, style, text, mkPrepared m size,
                generate_cache_key text font size style⟩ :
              GlyphCacheSession).get_text_encoding
                { c with
                  prepared_text_cache :=
                    ainsert (generate_cache_key text font size style)
                      (mkPrepared m size) c.prepared_text_cache,
                  stats := { c.stats with
                    cache_misses := c.stats.cache_misses + 1,
                    text_preparations :=
                      c.stats.text_preparations + 1 } }).2.2).prepared_text_cache =
            some (mkPrepared m size) := by
          rw [get_text_encoding_cache, get_encoding_prepared]
          exact alookup_ainsert_self _ _ _
        rw [runFlow_ok ext _ font size style text _ _
          (session_hit ext _ font size style text (mkPrepared m size) hl2)]
        exact h

/-- C1 witness: the second identical run reproduces the first run's
emitted rectangle encoding and offsets. -/
theorem c1_determinism_witness :
    (runFlow extOk
      (runFlow extOk GlyphCache.new [1] 16 (.fill .nonZero) "Hi").1
      [1] 16 (.fill .nonZero) "Hi").2 =
      some (⟨[.fillTag .nonZero],
             [((0, 0), (3, 0)), ((3, 0), (3, 4)), ((3, 4), (0, 4)),
              ((0, 4), (0, 0))], 1⟩,
            ⟨4, 1, 1⟩) :=
  c1_determinism extOk GlyphCache.new [1] 16 (.fill .nonZero) "Hi"
    (⟨[.fillTag .nonZero],
      [((0, 0), (3, 0)), ((3, 0), (3, 4)), ((3, 4), (0, 4)),
       ((0, 4), (0, 0))], 1⟩,
     ⟨4, 1, 1⟩) (by decide)

end Vello
